import Mathlib

/-!
Shallow embedding of the half-atwood-sim repository core
(src/physics.js, src/signals.js, src/regression.js, the selection logic of
src/graphs.js and the measurement gating of src/app.js), together with
theorems settling the specification claims.

JavaScript numbers are idealised as exact rationals (ℚ) where the source
performs only field arithmetic and comparisons, and as real numbers (ℝ)
where the source uses transcendental functions (sin, cos, exp, log, sqrt).
32-bit integer operations of the seeded RNG are modelled on ℕ with explicit
reduction modulo 2^32.  Fallible results (JavaScript null / NaN sentinels)
are modelled with Option.
-/

namespace HalfAtwood

/-- Sum of a list of rationals by left fold, mirroring the JavaScript
`values.reduce((sum, value) => sum + value, 0)` accumulation. -/
def sumQ (l : List ℚ) : ℚ := l.foldl (· + ·) 0

/-- Embedding of `mean` from src/regression.js.  The source returns `NaN` for an empty
input; the embedding returns `none` for that error sentinel. -/
def mean (values : List ℚ) : Option ℚ :=
  if values.length = 0 then none
  else some (sumQ values / values.length)

/-- A parallel pair of time and value subsequences, the return shape of
`sliceWindow` in src/regression.js. -/
structure SlicePair where
  times : List ℚ
  values : List ℚ
deriving DecidableEq, Repr

/-- The loop body of `sliceWindow`: walk the parallel samples (zipped) and
keep exactly those whose time lies in `[lo, hi]`. -/
def sliceWindowGo (lo hi : ℚ) : List (ℚ × ℚ) → SlicePair
  | [] => ⟨[], []⟩
  | (t, v) :: rest =>
    let tail := sliceWindowGo lo hi rest
    if lo ≤ t ∧ t ≤ hi then ⟨t :: tail.times, v :: tail.values⟩ else tail

/-- Embedding of `sliceWindow` from src/regression.js: normalize the window bounds, then
return the parallel subsequence of samples with `start ≤ time ≤ end`. -/
def sliceWindow (times values : List ℚ) (startS endS : ℚ) : SlicePair :=
  sliceWindowGo (min startS endS) (max startS endS) (times.zip values)

/-- Embedding of `meanInWindow` from src/regression.js. -/
def meanInWindow (times values : List ℚ) (startS endS : ℚ) : Option ℚ :=
  mean (sliceWindow times values startS endS).values

/-- Embedding of `FitResult` from src/regression.js. -/
structure FitResult where
  slope : ℚ
  intercept : ℚ
  r2 : ℚ
  count : ℕ
deriving DecidableEq, Repr

/-- Embedding of `linearRegression` from src/regression.js: ordinary least squares with
null on length mismatch, fewer than two points, or zero x-variance. -/
def linearRegression (x y : List ℚ) : Option FitResult :=
  if x.length ≠ y.length ∨ x.length < 2 then none
  else
    let xMean := (mean x).getD 0
    let yMean := (mean y).getD 0
    let ssxx := sumQ (x.map fun xv => (xv - xMean) * (xv - xMean))
    let ssxy := sumQ ((x.zip y).map fun p => (p.1 - xMean) * (p.2 - yMean))
    let sst := sumQ (y.map fun yv => (yv - yMean) * (yv - yMean))
    if ssxx = 0 then none
    else
      let slope := ssxy / ssxx
      let intercept := yMean - slope * xMean
      let residual := sumQ ((x.zip y).map fun p => (p.2 - (slope * p.1 + intercept)) ^ 2)
      let r2 := if sst = 0 then 1 else 1 - residual / sst
      some { slope := slope, intercept := intercept, r2 := r2, count := x.length }

/-- Embedding of `linearRegressionInWindow` from src/regression.js. -/
def linearRegressionInWindow (times values : List ℚ) (startS endS : ℚ) :
    Option FitResult :=
  let selected := sliceWindow times values startS endS
  linearRegression selected.times selected.values

/-- A time interval `{startS, endS}`, used with `α = ℚ` by the selection
logic of src/graphs.js and src/app.js, and with `α = ℝ` for the
`motionWindow` of src/signals.js. -/
structure Interval (α : Type) where
  startS : α
  endS : α
deriving DecidableEq, Repr

/-- Embedding of `normalizeSelection` from src/graphs.js: null maps to null, otherwise
order the two bounds. -/
def normalizeSelection : Option (Interval ℚ) → Option (Interval ℚ)
  | none => none
  | some selection =>
    some ⟨min selection.startS selection.endS, max selection.startS selection.endS⟩

/-- Embedding of `normalize` from src/app.js (same bound ordering, non-null input). -/
def normalize (selection : Interval ℚ) : Interval ℚ :=
  ⟨min selection.startS selection.endS, max selection.startS selection.endS⟩

/-- Embedding of `MIN_SELECTION_WIDTH_S` from src/app.js. -/
def MIN_SELECTION_WIDTH_S : ℚ := 0.12

/-- Embedding of `MIN_POINTS` from src/app.js. -/
def MIN_POINTS : ℕ := 6

/-- Embedding of `isValidSelection` from src/app.js: a selection exists and its width is
at least `MIN_SELECTION_WIDTH_S`. -/
def isValidSelection : Option (Interval ℚ) → Bool
  | none => false
  | some selection => MIN_SELECTION_WIDTH_S ≤ |selection.endS - selection.startS|

/-- The force branch of `updateMeasurementValues` in src/app.js: the mean
force over the selected window, or null when a gate fails. -/
def measurementForceMeanN (timesS forceN : List ℚ) (forceWindow : Option (Interval ℚ)) :
    Option ℚ :=
  match forceWindow with
  | none => none
  | some w =>
    if isValidSelection (some w) then
      let selection := normalize w
      let selected := sliceWindow timesS forceN selection.startS selection.endS
      if MIN_POINTS ≤ selected.values.length then mean selected.values else none
    else none

/-- The velocity branch of `updateMeasurementValues` in src/app.js: the
regression slope over the selected window, or null when a gate fails. -/
def measurementAccelerationMps2 (timesS velocityMps : List ℚ)
    (velocityWindow : Option (Interval ℚ)) : Option ℚ :=
  match velocityWindow with
  | none => none
  | some w =>
    if isValidSelection (some w) then
      let selection := normalize w
      match linearRegressionInWindow timesS velocityMps selection.startS selection.endS with
      | some fit => if MIN_POINTS ≤ fit.count then some fit.slope else none
      | none => none
    else none

/-! ### src/presets.js and src/physics.js -/

/-- Embedding of `ScenarioId` from src/presets.js. -/
inductive ScenarioId where
  | cart_only
  | cart_plus_pad
deriving DecidableEq, Repr

/-- Embedding of `ScenarioFrictionConfig` from src/presets.js. -/
structure ScenarioFrictionConfig where
  dragN : ℚ
  startThresholdN : ℚ
deriving DecidableEq, Repr

/-- Embedding of `TeacherPreset` from src/presets.js.  The `scenario` object literal with
its two fixed keys is modelled as two fields. -/
structure TeacherPreset where
  id : String
  label : String
  noiseDefault : Bool
  cartMassKg : ℚ
  padMassKg : ℚ
  cart_only : ScenarioFrictionConfig
  cart_plus_pad : ScenarioFrictionConfig
deriving DecidableEq, Repr

/-- Key lookup `preset.scenario[scenario]`. -/
def TeacherPreset.scenarioConfigOf (preset : TeacherPreset) :
    ScenarioId → ScenarioFrictionConfig
  | ScenarioId.cart_only => preset.cart_only
  | ScenarioId.cart_plus_pad => preset.cart_plus_pad

/-- Embedding of `PRESETS` from src/presets.js. -/
def PRESETS : List TeacherPreset :=
  [ { id := "low", label := "Low Friction", noiseDefault := false,
      cartMassKg := 0.5, padMassKg := 0.2,
      cart_only := { dragN := 0.06, startThresholdN := 0.04 },
      cart_plus_pad := { dragN := 1.05, startThresholdN := 0.95 } },
    { id := "medium", label := "Medium Friction", noiseDefault := false,
      cartMassKg := 0.5, padMassKg := 0.22,
      cart_only := { dragN := 0.09, startThresholdN := 0.06 },
      cart_plus_pad := { dragN := 1.35, startThresholdN := 1.15 } },
    { id := "high", label := "High Friction", noiseDefault := true,
      cartMassKg := 0.5, padMassKg := 0.24,
      cart_only := { dragN := 0.12, startThresholdN := 0.08 },
      cart_plus_pad := { dragN := 1.7, startThresholdN := 1.35 } } ]

/-- Embedding of `getPresetById` from src/presets.js.  The source throws on an unknown
id; the embedding returns `none` for that failure. -/
def getPresetById (presetId : String) : Option TeacherPreset :=
  PRESETS.find? (fun item => item.id == presetId)

/-- Embedding of `scenarioTitle` from src/presets.js. -/
def scenarioTitle (scenario : ScenarioId) : String :=
  if scenario = ScenarioId.cart_plus_pad then "Cart + Friction Pad" else "Cart Only"

/-- Embedding of `G` from src/physics.js. -/
def G : ℚ := 9.81

/-- Embedding of `TRACK_LENGTH_M` from src/physics.js. -/
def TRACK_LENGTH_M : ℚ := 1.2

/-- Embedding of `TrialInput` from src/physics.js.  The scenario is the typed enum, so
the `Unsupported scenario` throw of the source is unreachable here. -/
structure TrialInput where
  scenario : ScenarioId
  presetId : String
  hangingMassKg : ℚ

/-- Embedding of `ScenarioConfig` from src/physics.js. -/
structure ScenarioConfig where
  scenario : ScenarioId
  scenarioLabel : String
  presetId : String
  presetLabel : String
  cartMassKg : ℚ
  padMassKg : ℚ
  systemMassKg : ℚ
  dragN : ℚ
  startThresholdN : ℚ

/-- Embedding of `getScenarioConfig` from src/physics.js (`none` for the unknown-preset
throw). -/
def getScenarioConfig (input : TrialInput) : Option ScenarioConfig :=
  (getPresetById input.presetId).map fun preset =>
    let scenarioFriction := preset.scenarioConfigOf input.scenario
    let systemMassKg :=
      if input.scenario = ScenarioId.cart_plus_pad then
        preset.cartMassKg + preset.padMassKg
      else preset.cartMassKg
    { scenario := input.scenario
      scenarioLabel := scenarioTitle input.scenario
      presetId := preset.id
      presetLabel := preset.label
      cartMassKg := preset.cartMassKg
      padMassKg := preset.padMassKg
      systemMassKg := systemMassKg
      dragN := scenarioFriction.dragN
      startThresholdN := scenarioFriction.startThresholdN }

/-- Embedding of `TrialPhysics` from src/physics.js.  All fields are exact rationals
except `travelTimeS`, which involves a square root and is a real. -/
structure TrialPhysics where
  config : ScenarioConfig
  hangingMassKg : ℚ
  pullingForceN : ℚ
  netForceN : ℚ
  accelerationMps2 : ℚ
  tensionN : ℚ
  moved : Bool
  travelTimeS : Option ℝ

/-- Embedding of `computeTrialPhysics` from src/physics.js. -/
noncomputable def computeTrialPhysics (input : TrialInput) : Option TrialPhysics :=
  (getScenarioConfig input).map fun config =>
    let pullingForceN := input.hangingMassKg * G
    if pullingForceN ≤ config.startThresholdN then
      { config := config, hangingMassKg := input.hangingMassKg
        pullingForceN := pullingForceN, netForceN := 0, accelerationMps2 := 0
        tensionN := pullingForceN, moved := false, travelTimeS := none }
    else
      let netForceN := pullingForceN - config.dragN
      let totalAcceleratedMassKg := config.systemMassKg + input.hangingMassKg
      let accelerationMps2 := netForceN / totalAcceleratedMassKg
      if accelerationMps2 ≤ 0 then
        { config := config, hangingMassKg := input.hangingMassKg
          pullingForceN := pullingForceN, netForceN := netForceN
          accelerationMps2 := 0, tensionN := pullingForceN, moved := false
          travelTimeS := none }
      else
        let tensionN := config.systemMassKg * accelerationMps2 + config.dragN
        let travelTimeS : ℝ := Real.sqrt (((2 * TRACK_LENGTH_M / accelerationMps2 : ℚ) : ℝ))
        { config := config, hangingMassKg := input.hangingMassKg
          pullingForceN := pullingForceN, netForceN := netForceN
          accelerationMps2 := accelerationMps2, tensionN := tensionN
          moved := true, travelTimeS := some travelTimeS }

/-! ### src/signals.js -/

/-- Embedding of `clamp` from src/signals.js: `Math.min(max, Math.max(min, value))`,
with the `min`/`max` parameters renamed `lo`/`hi`. -/
noncomputable def clamp (value lo hi : ℝ) : ℝ := min hi (max lo value)

/-- Rational variant of `clamp`, used for the Box-Muller `u1` clamp whose
inputs are exact RNG rationals. -/
def clampQ (value lo hi : ℚ) : ℚ := min hi (max lo value)

/-- Reduction modulo 2^32: the implicit 32-bit truncation of the JavaScript
integer operations in `createRng`. -/
def mask32 (n : ℕ) : ℕ := n % 4294967296

/-- The mixing body of the closure returned by `createRng` in
src/signals.js: `t = imul(t ^ (t >>> 15), t | 1); t ^= t + imul(t ^ (t >>> 7),
t | 61); return (t ^ (t >>> 14)) >>> 0`, on unsigned 32-bit residues. -/
def mix32 (state : ℕ) : ℕ :=
  let t1 := mask32 ((state ^^^ (state >>> 15)) * (state ||| 1))
  let t2 := t1 ^^^ mask32 (t1 + mask32 ((t1 ^^^ (t1 >>> 7)) * (t1 ||| 61)))
  t2 ^^^ (t2 >>> 14)

/-- The RNG state after `n` calls: `state = seed >>> 0` initially, then
`state += 0x6d2b79f5` (mod 2^32) at the start of each call. -/
def rngStateAfter (seed : ℕ) : ℕ → ℕ
  | 0 => mask32 seed
  | n + 1 => mask32 (rngStateAfter seed n + 0x6d2b79f5)

/-- The `n`-th (0-indexed) uniform value produced by `createRng(seed)`:
the mixed state divided by 4294967296, an exact rational in `[0, 1)`. -/
def rngValue (seed n : ℕ) : ℚ := (mix32 (rngStateAfter seed (n + 1)) : ℚ) / 4294967296

/-- One call of the noise-enabled sampler returned by `buildNoiseSampler`
in src/signals.js.  The closure's call counter is made explicit: call
number `call` consumes the uniform draws `2*call` and `2*call + 1`. -/
noncomputable def noiseSample (presetSeed : ℕ) (call : ℕ) (scale : ℝ) : ℝ :=
  let u1 : ℚ := clampQ (rngValue presetSeed (2 * call)) 1e-8 (1 - 1e-8)
  let u2 : ℚ := rngValue presetSeed (2 * call + 1)
  let z : ℝ := Real.sqrt (-2 * Real.log ((u1 : ℝ))) * Real.cos (2 * Real.pi * ((u2 : ℝ)))
  z * scale

/-- Embedding of `buildNoiseSampler` from src/signals.js, with the closure's call
counter as an explicit first argument: the constant-zero sampler when noise
is disabled, the seeded Box-Muller sampler otherwise. -/
noncomputable def buildNoiseSampler (presetSeed : ℕ) (noiseEnabled : Bool) :
    ℕ → ℝ → ℝ :=
  if noiseEnabled then fun call scale => noiseSample presetSeed call scale
  else fun _ _ => 0

/-- Embedding of `PhysicsResult` as consumed by the signal synthesizer (the spec's data
model for the external physics input of src/signals.js). -/
structure PhysicsResult where
  moved : Bool
  accelerationMps2 : ℝ
  tensionN : ℝ
  pullingForceN : ℝ
  travelTimeS : Option ℝ

/-- The options argument of `generateTrialSignals`; `durationS` and
`sampleRateHz` are optional with defaults 4.5 and 60 (`??` in the source). -/
structure SignalOptions where
  noiseEnabled : Bool
  seed : ℕ
  durationS : Option ℝ
  sampleRateHz : Option ℝ

/-- Embedding of `SignalPhases` from src/signals.js. -/
structure SignalPhases where
  initialStartS : ℝ
  accelStartS : ℝ
  accelEndS : ℝ
  stopEndS : ℝ

/-- Embedding of `TrialSignals` from src/signals.js. -/
structure TrialSignals where
  timesS : List ℝ
  forceN : List ℝ
  velocityMps : List ℝ
  motionWindow : Option (Interval ℝ)
  phases : SignalPhases

/-- Embedding of `generateTrialSignals` from src/signals.js.  The sample loop is
modelled index-by-index over `List.range count`; each iteration makes
exactly two noise-sampler calls (force first, then velocity), so sample
`index` uses sampler calls `2*index` and `2*index + 1`. -/
noncomputable def generateTrialSignals (physics : PhysicsResult)
    (options : SignalOptions) : TrialSignals :=
  let durationS := options.durationS.getD 4.5
  let sampleRateHz := options.sampleRateHz.getD 60
  let count : ℕ := (⌊durationS * sampleRateHz⌋ + 1).toNat
  let noise := buildNoiseSampler options.seed options.noiseEnabled
  let initialStartS : ℝ := 0
  let accelStartS : ℝ := 0.7
  let accelDurationS :=
    if physics.moved then clamp ((physics.travelTimeS.getD 1.8) * 0.8) 1.1 2.0 else 0
  let accelEndS :=
    if physics.moved then clamp (accelStartS + accelDurationS) 1.8 (durationS - 1.2)
    else accelStartS
  let rampWindowS :=
    if physics.moved then min 0.24 (max 0.12 (0.14 * accelDurationS)) else 0
  let linearStartS := accelStartS + rampWindowS
  let linearEndS := accelEndS - rampWindowS
  let stopDurationS : ℝ := if physics.moved then 0.45 else 0
  let stopEndS :=
    if physics.moved then clamp (accelEndS + stopDurationS) (accelEndS + 0.35) (durationS - 0.35)
    else accelStartS + 0.35
  let peakVelocity :=
    if physics.moved then physics.accelerationMps2 * (accelEndS - accelStartS) else 0
  let sampleAt : ℕ → ℝ × ℝ := fun index =>
    let t := (index : ℝ) / sampleRateHz
    if physics.moved then
      let fv : ℝ × ℝ :=
        if t < accelStartS then
          let phaseRatio := t / accelStartS
          (physics.tensionN * (0.15 + 0.85 * phaseRatio) + 0.01 * Real.sin (8 * t),
           0.004 * Real.sin (9 * t))
        else if t ≤ accelEndS then
          let dt := t - accelStartS
          let oscillation := 0.035 * Real.exp (-3 * dt) * Real.sin (14 * dt)
          let force := physics.tensionN + oscillation
          let velocity :=
            if t < linearStartS then
              -- Smooth ramp into near-constant acceleration.
              let u := clamp ((t - accelStartS) / rampWindowS) 0 1
              0.5 * physics.accelerationMps2 * rampWindowS * u * u
            else if t ≤ linearEndS then
              let vRamp := 0.5 * physics.accelerationMps2 * rampWindowS
              vRamp + physics.accelerationMps2 * (t - linearStartS)
            else
              -- Smooth ramp out of acceleration.
              let u := clamp ((t - linearEndS) / rampWindowS) 0 1
              let vRamp := 0.5 * physics.accelerationMps2 * rampWindowS
              let vLinear := vRamp + physics.accelerationMps2 * (linearEndS - linearStartS)
              vLinear + physics.accelerationMps2 * rampWindowS * (u - 0.5 * u * u)
          (force, velocity)
        else if t ≤ stopEndS then
          let dt := t - accelEndS
          let ratio := clamp (dt / stopDurationS) 0 1
          ((1 - ratio) * physics.tensionN * 0.7 +
             0.03 * Real.sin (18 * dt) * Real.exp (-4 * dt),
           peakVelocity * Real.exp (-3.2 * dt))
        else
          let dt := t - stopEndS
          (0.01 * Real.sin (14 * dt) * Real.exp (-4 * dt),
           0.002 * Real.sin (11 * dt) * Real.exp (-4 * dt))
      (fv.1 + noise (2 * index) 0.01, fv.2 + noise (2 * index + 1) 0.006)
    else
      -- `pulse` is 1 when sin(10 t) > 0.82 and 0 otherwise; the source's
      -- `pulse ? 0.015 : 0` truthiness test is that same condition.
      let pulse : ℝ := if 0.82 < Real.sin (10 * t) then 1 else 0
      let force := physics.pullingForceN * (0.9 + 0.05 * Real.sin (3.8 * t)) + pulse * 0.04
      let velocity :=
        (if 0.82 < Real.sin (10 * t) then (0.015 : ℝ) else 0) + 0.003 * Real.sin (11 * t)
      (force + noise (2 * index) 0.015, velocity + noise (2 * index + 1) 0.003)
  { timesS := (List.range count).map fun (index : ℕ) => (index : ℝ) / sampleRateHz
    forceN := (List.range count).map fun index => (sampleAt index).1
    velocityMps := (List.range count).map fun index => (sampleAt index).2
    motionWindow :=
      if physics.moved then some ⟨accelStartS, accelEndS⟩ else none
    phases :=
      { initialStartS := initialStartS, accelStartS := accelStartS
        accelEndS := accelEndS, stopEndS := stopEndS } }

/-- The trial physics computed for scenario `cart_only`, preset `low`,
hanging mass 0.5 kg: used as the concrete witness input for C10. -/
noncomputable def lowCartOnlyPhys : TrialPhysics :=
  { config :=
      { scenario := ScenarioId.cart_only, scenarioLabel := "Cart Only",
        presetId := "low", presetLabel := "Low Friction", cartMassKg := 0.5,
        padMassKg := 0.2, systemMassKg := 0.5, dragN := 0.06,
        startThresholdN := 0.04 }
    hangingMassKg := 1/2
    pullingForceN := 1/2 * G
    netForceN := 1/2 * G - 0.06
    accelerationMps2 := (1/2 * G - 0.06) / (0.5 + 1/2)
    tensionN := 0.5 * ((1/2 * G - 0.06) / (0.5 + 1/2)) + 0.06
    moved := true
    travelTimeS :=
      some (Real.sqrt (((2 * TRACK_LENGTH_M / ((1/2 * G - 0.06) / (0.5 + 1/2)) : ℚ) : ℝ))) }

/-! ### Helper lemmas -/

theorem sumQ_eq_sum (l : List ℚ) : sumQ l = l.sum := by
  rw [sumQ, List.sum_eq_foldl]

theorem sq_map_sum_nonneg (l : List ℚ) (m : ℚ) :
    0 ≤ ((l.map fun v => (v - m) * (v - m)).sum) := by
  refine List.sum_nonneg ?_
  intro x hx
  obtain ⟨v, _, rfl⟩ := List.mem_map.mp hx
  exact mul_self_nonneg _

theorem sq_map_sum_eq_zero_iff (l : List ℚ) (m : ℚ) :
    ((l.map fun v => (v - m) * (v - m)).sum) = 0 ↔ ∀ v ∈ l, v = m := by
  induction l with
  | nil => simp
  | cons a l ih =>
    simp only [List.map_cons, List.sum_cons, List.mem_cons]
    constructor
    · intro h
      have h1 : 0 ≤ (a - m) * (a - m) := mul_self_nonneg _
      have h2 := sq_map_sum_nonneg l m
      have ha : (a - m) * (a - m) = 0 := by linarith
      have ha2 : a = m := by
        have := mul_self_eq_zero.mp ha
        linarith [sub_eq_zero.mp this]
      refine fun v hv => hv.elim (fun hv => hv ▸ ha2) (fun hv => (ih.mp (by linarith)) v hv)
    · intro h
      have ha : a = m := h a (Or.inl rfl)
      have hr : ((l.map fun v => (v - m) * (v - m)).sum) = 0 :=
        ih.mpr fun v hv => h v (Or.inr hv)
      rw [hr, ha]
      ring

theorem sum_all_eq (l : List ℚ) (c : ℚ) (h : ∀ v ∈ l, v = c) :
    l.sum = l.length * c := by
  induction l with
  | nil => simp
  | cons a l ih =>
    simp only [List.sum_cons, List.length_cons]
    rw [h a (List.mem_cons_self a l), ih fun v hv => h v (List.mem_cons_of_mem a hv)]
    push_cast
    ring

theorem mean_all_eq (l : List ℚ) (c : ℚ) (hne : l.length ≠ 0) (h : ∀ v ∈ l, v = c) :
    (mean l).getD 0 = c := by
  rw [mean, if_neg hne, Option.getD_some, sumQ_eq_sum, sum_all_eq l c h]
  exact mul_div_cancel_left₀ c (by exact_mod_cast hne)

/-! ### Claim theorems -/

/-- C5: `linearRegression([0,1,2,3,4], [2,5,8,11,14])` returns exactly
`{slope: 3, intercept: 2, r2: 1, count: 5}`. -/
theorem C5_linearRegression_exact_on_line :
    linearRegression [0, 1, 2, 3, 4] [2, 5, 8, 11, 14] =
      some { slope := 3, intercept := 2, r2 := 1, count := 5 } := by
  norm_num [linearRegression, mean, sumQ]

theorem sliceWindowGo_eq_filter (lo hi : ℚ) (l : List (ℚ × ℚ)) :
    sliceWindowGo lo hi l =
      ⟨(l.filter fun p => decide (lo ≤ p.1 ∧ p.1 ≤ hi)).map Prod.fst,
       (l.filter fun p => decide (lo ≤ p.1 ∧ p.1 ≤ hi)).map Prod.snd⟩ := by
  induction l with
  | nil => rfl
  | cons p l ih =>
    obtain ⟨t, v⟩ := p
    by_cases h : lo ≤ t ∧ t ≤ hi
    · simp [sliceWindowGo, List.filter_cons, h, ih]
    · simp [sliceWindowGo, List.filter_cons, h, ih]

/-- C6: `sliceWindow` normalizes the window and returns exactly the
parallel subsequence of samples whose time satisfies
`min startS endS ≤ t ≤ max startS endS` (both bounds inclusive), and
`linearRegressionInWindow([0..5], [1,3,5,7,10,13], 1, 3)` gives
`slope = 2`, `intercept = 1`, `count = 3` (only times 1, 2, 3 included). -/
theorem C6_sliceWindow_inclusive_parallel :
    (∀ (times values : List ℚ) (startS endS : ℚ),
      sliceWindow times values startS endS =
        ⟨((times.zip values).filter fun p =>
            decide (min startS endS ≤ p.1 ∧ p.1 ≤ max startS endS)).map Prod.fst,
         ((times.zip values).filter fun p =>
            decide (min startS endS ≤ p.1 ∧ p.1 ≤ max startS endS)).map Prod.snd⟩)
    ∧ linearRegressionInWindow [0, 1, 2, 3, 4, 5] [1, 3, 5, 7, 10, 13] 1 3 =
        some { slope := 2, intercept := 1, r2 := 1, count := 3 } := by
  constructor
  · intro times values startS endS
    exact sliceWindowGo_eq_filter _ _ _
  · norm_num [linearRegressionInWindow, sliceWindow, sliceWindowGo, linearRegression,
      mean, sumQ]

/-- C8: selection normalization is idempotent and order-independent;
an already-ordered interval is unchanged, `{startS:5, endS:1}` maps to
`{startS:1, endS:5}`, every non-null output has `startS ≤ endS`, and null
maps to null. -/
theorem C8_normalize_idempotent_order_independent :
    (∀ s, normalizeSelection (normalizeSelection s) = normalizeSelection s)
    ∧ (∀ s : Interval ℚ, s.startS ≤ s.endS → normalize s = s)
    ∧ (∀ a b : ℚ, normalize ⟨a, b⟩ = normalize ⟨b, a⟩)
    ∧ (∀ a b : ℚ, normalizeSelection (some ⟨a, b⟩) = normalizeSelection (some ⟨b, a⟩))
    ∧ normalizeSelection (some ⟨5, 1⟩) = some ⟨1, 5⟩
    ∧ (∀ s : Interval ℚ, (normalize s).startS ≤ (normalize s).endS)
    ∧ (∀ s r, normalizeSelection (some s) = some r → r.startS ≤ r.endS)
    ∧ normalizeSelection none = none := by
  refine ⟨?_, ?_, ?_, ?_, ?_, ?_, ?_, rfl⟩
  · intro s
    match s with
    | none => rfl
    | some ⟨a, b⟩ =>
      simp only [normalizeSelection, Option.some.injEq, Interval.mk.injEq]
      exact ⟨min_eq_left min_le_max, max_eq_right min_le_max⟩
  · intro s h
    obtain ⟨a, b⟩ := s
    simp only [normalize, Interval.mk.injEq]
    exact ⟨min_eq_left h, max_eq_right h⟩
  · intro a b
    simp only [normalize, Interval.mk.injEq]
    exact ⟨min_comm a b, max_comm a b⟩
  · intro a b
    simp only [normalizeSelection, Option.some.injEq, Interval.mk.injEq]
    exact ⟨min_comm a b, max_comm a b⟩
  · simp only [normalizeSelection, Option.some.injEq, Interval.mk.injEq]
    norm_num
  · intro s
    exact min_le_max
  · intro s r h
    simp only [normalizeSelection, Option.some.injEq] at h
    rw [← h]
    exact min_le_max

/-- Witness for C8 at a concrete input: normalizing the already-normalized
interval `{startS:1, endS:5}` returns it unchanged. -/
theorem C8_witness : normalize ⟨1, 5⟩ = ⟨1, 5⟩ :=
  C8_normalize_idempotent_order_independent.2.1 ⟨1, 5⟩ (by norm_num)

/-- If `linearRegression` succeeds, the reported `count` is the length of
the x input. -/
theorem linearRegression_count (x y : List ℚ) (f : FitResult)
    (h : linearRegression x y = some f) : f.count = x.length := by
  simp only [linearRegression] at h
  split_ifs at h <;> cases h <;> rfl

/-- C4: `linearRegression` returns null exactly when the lengths differ,
there are fewer than two points, or all x values are equal; and on
non-degenerate input with all y identical it returns `r2 = 1`. -/
theorem C4_linearRegression_degenerate (x y : List ℚ) :
    (linearRegression x y = none ↔
      x.length ≠ y.length ∨ x.length < 2 ∨ ∀ a ∈ x, ∀ b ∈ x, a = b)
    ∧ (∀ f, linearRegression x y = some f → (∀ a ∈ y, ∀ b ∈ y, a = b) →
        f.r2 = 1) := by
  by_cases hg : x.length ≠ y.length ∨ x.length < 2
  · constructor
    · simp only [linearRegression, if_pos hg, true_iff]
      exact hg.elim Or.inl (fun h => Or.inr (Or.inl h))
    · intro f hf
      simp only [linearRegression, if_pos hg, reduceCtorEq] at hf
  · push_neg at hg
    obtain ⟨hlen, hlen2⟩ := hg
    have hxne : x.length ≠ 0 := by omega
    have hiff : sumQ (x.map fun xv =>
        (xv - (mean x).getD 0) * (xv - (mean x).getD 0)) = 0 ↔
        ∀ a ∈ x, ∀ b ∈ x, a = b := by
      rw [sumQ_eq_sum, sq_map_sum_eq_zero_iff]
      constructor
      · intro h a ha b hb
        rw [h a ha, h b hb]
      · intro h v hv
        obtain ⟨a, ha⟩ := List.exists_mem_of_length_pos (by omega : 0 < x.length)
        have hall : ∀ w ∈ x, w = a := fun w hw => h w hw a ha
        rw [mean_all_eq x a hxne hall]
        exact hall v hv
    have hg2 : ¬(x.length ≠ y.length ∨ x.length < 2) := by
      push_neg
      exact ⟨hlen, hlen2⟩
    constructor
    · simp only [linearRegression, if_neg hg2]
      split_ifs with h0
      · simp only [true_iff]
        exact Or.inr (Or.inr (hiff.mp h0))
      · simp only [reduceCtorEq, false_iff]
        intro hcon
        rcases hcon with h | h | h
        · exact h hlen
        · omega
        · exact h0 (hiff.mpr h)
    · intro f hf hy
      simp only [linearRegression, if_neg hg2] at hf
      have hyne : y.length ≠ 0 := by omega
      obtain ⟨b, hb⟩ := List.exists_mem_of_length_pos (by omega : 0 < y.length)
      have hally : ∀ w ∈ y, w = b := fun w hw => hy w hw b hb
      have hsst : sumQ (y.map fun yv =>
          (yv - (mean y).getD 0) * (yv - (mean y).getD 0)) = 0 := by
        rw [sumQ_eq_sum, sq_map_sum_eq_zero_iff]
        intro v hv
        rw [mean_all_eq y b hyne hally]
        exact hally v hv
      by_cases h0 : sumQ (List.map (fun xv =>
          (xv - (mean x).getD 0) * (xv - (mean x).getD 0)) x) = 0
      · rw [if_pos h0] at hf
        exact absurd hf (by simp)
      · rw [if_neg h0] at hf
        rw [← Option.some.inj hf]
        dsimp only
        rw [if_pos hsst]

/-- Witness for C4 at a concrete input: two points with identical y values
give a successful fit with `r2 = 1`. -/
theorem C4_witness :
    linearRegression [0, 1] [5, 5] =
      some { slope := 0, intercept := 5, r2 := 1, count := 2 } ∧
    ({ slope := 0, intercept := 5, r2 := 1, count := 2 } : FitResult).r2 = 1 := by
  have hf : linearRegression [0, 1] [5, 5] =
      some { slope := 0, intercept := 5, r2 := 1, count := 2 } := by
    norm_num [linearRegression, mean, sumQ]
  refine ⟨hf, (C4_linearRegression_degenerate [0, 1] [5, 5]).2 _ hf ?_⟩
  intro a ha b hb
  fin_cases ha <;> fin_cases hb <;> rfl

theorem isValidSelection_some (w : Interval ℚ) :
    isValidSelection (some w) = true ↔
      MIN_SELECTION_WIDTH_S ≤ |w.endS - w.startS| := by
  simp [isValidSelection]

theorem sliceWindow_length_eq (times values : List ℚ) (s e : ℚ) :
    (sliceWindow times values s e).times.length =
      (sliceWindow times values s e).values.length := by
  rw [sliceWindow, sliceWindowGo_eq_filter]
  simp

/-- C3: if the selected window is narrower than 0.12 s, or its slice of the
trial samples has fewer than 6 points, the derived measurement is null; a
measurement is non-null only when both gates pass. -/
theorem C3_measurement_gating (timesS forceN velocityMps : List ℚ) (w : Interval ℚ) :
    ((|w.endS - w.startS| < MIN_SELECTION_WIDTH_S ∨
        (sliceWindow timesS forceN (normalize w).startS
            (normalize w).endS).values.length < MIN_POINTS) →
      measurementForceMeanN timesS forceN (some w) = none)
    ∧ (measurementForceMeanN timesS forceN (some w) ≠ none →
        MIN_SELECTION_WIDTH_S ≤ |w.endS - w.startS| ∧
        MIN_POINTS ≤ (sliceWindow timesS forceN (normalize w).startS
            (normalize w).endS).values.length)
    ∧ ((|w.endS - w.startS| < MIN_SELECTION_WIDTH_S ∨
        (sliceWindow timesS velocityMps (normalize w).startS
            (normalize w).endS).times.length < MIN_POINTS) →
      measurementAccelerationMps2 timesS velocityMps (some w) = none)
    ∧ (measurementAccelerationMps2 timesS velocityMps (some w) ≠ none →
        MIN_SELECTION_WIDTH_S ≤ |w.endS - w.startS| ∧
        MIN_POINTS ≤ (sliceWindow timesS velocityMps (normalize w).startS
            (normalize w).endS).times.length) := by
  have hvb := isValidSelection_some w
  refine ⟨?_, ?_, ?_, ?_⟩
  · intro h
    simp only [measurementForceMeanN]
    rcases h with h | h
    · have hval : ¬isValidSelection (some w) = true := by
        rw [hvb]
        exact not_le.mpr h
      rw [if_neg hval]
    · by_cases hval : isValidSelection (some w) = true
      · rw [if_pos hval, if_neg (not_le.mpr h)]
      · rw [if_neg hval]
  · intro hne
    simp only [measurementForceMeanN] at hne
    by_cases hval : isValidSelection (some w) = true
    · rw [if_pos hval] at hne
      by_cases hc : MIN_POINTS ≤ (sliceWindow timesS forceN (normalize w).startS
          (normalize w).endS).values.length
      · exact ⟨hvb.mp hval, hc⟩
      · rw [if_neg hc] at hne
        exact absurd rfl hne
    · rw [if_neg hval] at hne
      exact absurd rfl hne
  · intro h
    simp only [measurementAccelerationMps2]
    rcases h with h | h
    · have hval : ¬isValidSelection (some w) = true := by
        rw [hvb]
        exact not_le.mpr h
      rw [if_neg hval]
    · by_cases hval : isValidSelection (some w) = true
      · rw [if_pos hval]
        rcases hfit : linearRegressionInWindow timesS velocityMps (normalize w).startS
            (normalize w).endS with _ | fit
        · simp only [hfit]
        · simp only [hfit]
          simp only [linearRegressionInWindow] at hfit
          have hcount := linearRegression_count _ _ _ hfit
          rw [if_neg (by omega)]
      · rw [if_neg hval]
  · intro hne
    simp only [measurementAccelerationMps2] at hne
    by_cases hval : isValidSelection (some w) = true
    · rw [if_pos hval] at hne
      rcases hfit : linearRegressionInWindow timesS velocityMps (normalize w).startS
          (normalize w).endS with _ | fit
      · simp only [hfit] at hne
        exact absurd rfl hne
      · simp only [hfit] at hne
        by_cases hc : MIN_POINTS ≤ fit.count
        · simp only [linearRegressionInWindow] at hfit
          have hcount := linearRegression_count _ _ _ hfit
          exact ⟨hvb.mp hval, by omega⟩
        · rw [if_neg hc] at hne
          exact absurd rfl hne
    · rw [if_neg hval] at hne
      exact absurd rfl hne

/-- Witness for C3 at a concrete input: a 0.6 s window over seven samples
passes both gates, and the force measurement is indeed non-null there. -/
theorem C3_witness :
    MIN_SELECTION_WIDTH_S ≤
      |(Interval.mk (0 : ℚ) (3/5)).endS - (Interval.mk (0 : ℚ) (3/5)).startS| ∧
    MIN_POINTS ≤ (sliceWindow [0, 1/10, 2/10, 3/10, 4/10, 5/10, 6/10]
        [1, 1, 1, 1, 1, 1, 1]
        (normalize ⟨0, 3/5⟩).startS (normalize ⟨0, 3/5⟩).endS).values.length := by
  have h : measurementForceMeanN [0, 1/10, 2/10, 3/10, 4/10, 5/10, 6/10]
      [1, 1, 1, 1, 1, 1, 1] (some ⟨0, 3/5⟩) = some 1 := by
    norm_num [measurementForceMeanN, isValidSelection, MIN_SELECTION_WIDTH_S,
      MIN_POINTS, normalize, sliceWindow, sliceWindowGo, mean, sumQ]
    intro hcon
    rw [abs_of_nonneg (by norm_num : (0 : ℚ) ≤ 3/5)] at hcon
    norm_num at hcon
  exact (C3_measurement_gating [0, 1/10, 2/10, 3/10, 4/10, 5/10, 6/10]
      [1, 1, 1, 1, 1, 1, 1] [0, 1/10, 2/10, 3/10, 4/10, 5/10, 6/10]
      ⟨0, 3/5⟩).2.1 (by rw [h]; simp)

/-- C10: `computeTrialPhysics` returns a positive non-null `travelTimeS`
exactly when `moved`; `moved` holds exactly when the pulling force exceeds
the start threshold and the computed acceleration is positive; a non-moved
trial has zero acceleration and `tensionN = pullingForceN`.  In particular
`travelTimeS` is never null for a moved result, so the `?? 1.8` fallback of
`generateTrialSignals` is unreachable on outputs of `computeTrialPhysics`. -/
theorem C10_computeTrialPhysics_moved_iff (input : TrialInput)
    (phys : TrialPhysics) (h : computeTrialPhysics input = some phys) :
    ((∃ t, phys.travelTimeS = some t ∧ 0 < t) ↔ phys.moved = true)
    ∧ (phys.moved = true ↔
        (phys.config.startThresholdN < phys.pullingForceN ∧
          0 < (phys.pullingForceN - phys.config.dragN) /
              (phys.config.systemMassKg + phys.hangingMassKg)))
    ∧ (phys.moved = false →
        phys.accelerationMps2 = 0 ∧ phys.tensionN = phys.pullingForceN)
    ∧ (phys.moved = true → phys.travelTimeS ≠ none) := by
  simp only [computeTrialPhysics, Option.map_eq_some'] at h
  obtain ⟨config, hconf, hphys⟩ := h
  split_ifs at hphys with h1 h2
  · subst hphys
    refine ⟨by simp, ?_, by simp, by simp⟩
    simp [not_lt.mpr h1]
  · subst hphys
    refine ⟨by simp, ?_, by simp, by simp⟩
    simp [not_lt.mpr h2]
  · subst hphys
    have haccel : 0 < (input.hangingMassKg * G - config.dragN) /
        (config.systemMassKg + input.hangingMassKg) := not_le.mp h2
    have hpos : 0 < Real.sqrt (((2 * TRACK_LENGTH_M /
        ((input.hangingMassKg * G - config.dragN) /
          (config.systemMassKg + input.hangingMassKg)) : ℚ) : ℝ)) := by
      refine Real.sqrt_pos.mpr ?_
      exact_mod_cast div_pos (by norm_num [TRACK_LENGTH_M]) haccel
    refine ⟨?_, ?_, by simp, by simp⟩
    · simp only [Option.some.injEq, exists_eq_left, true_iff]
      constructor
      · intro
        trivial
      · intro
        exact ⟨_, rfl, hpos⟩
    · simp [not_le.mp h1, haccel]

/-- Witness for C10 at a concrete input: with the low-friction preset and a
0.5 kg hanging mass the trial moves and `travelTimeS` is non-null. -/
theorem C10_witness :
    computeTrialPhysics ⟨ScenarioId.cart_only, "low", 1/2⟩ = some lowCartOnlyPhys ∧
    lowCartOnlyPhys.moved = true ∧ lowCartOnlyPhys.travelTimeS ≠ none := by
  have hconf : getScenarioConfig ⟨ScenarioId.cart_only, "low", 1/2⟩ =
      some { scenario := ScenarioId.cart_only, scenarioLabel := "Cart Only",
             presetId := "low", presetLabel := "Low Friction", cartMassKg := 0.5,
             padMassKg := 0.2, systemMassKg := 0.5, dragN := 0.06,
             startThresholdN := 0.04 } := by
    simp [getScenarioConfig, getPresetById, PRESETS, scenarioTitle,
      TeacherPreset.scenarioConfigOf]
  have h : computeTrialPhysics ⟨ScenarioId.cart_only, "low", 1/2⟩ =
      some lowCartOnlyPhys := by
    simp only [computeTrialPhysics]
    rw [hconf, Option.map_some']
    norm_num [lowCartOnlyPhys, G]
  exact ⟨h, rfl, (C10_computeTrialPhysics_moved_iff _ _ h).2.2.2 rfl⟩

theorem mask32_lt (n : ℕ) : mask32 n < 4294967296 :=
  Nat.mod_lt _ (by norm_num)

theorem xor_lt_mod32 (a b : ℕ) (ha : a < 4294967296) (hb : b < 4294967296) :
    a ^^^ b < 4294967296 := by
  have h32 : (4294967296 : ℕ) = 2 ^ 32 := by norm_num
  rw [h32] at ha hb ⊢
  exact Nat.xor_lt_two_pow ha hb

theorem shiftRight_le_self (a k : ℕ) : a >>> k ≤ a := by
  rw [Nat.shiftRight_eq_div_pow]
  exact Nat.div_le_self _ _

theorem mix32_lt (s : ℕ) : mix32 s < 4294967296 := by
  simp only [mix32]
  set t1 := mask32 ((s ^^^ (s >>> 15)) * (s ||| 1)) with ht1
  have h1 : t1 < 4294967296 := mask32_lt _
  set t2 := t1 ^^^ mask32 (t1 + mask32 ((t1 ^^^ (t1 >>> 7)) * (t1 ||| 61))) with ht2
  have h2 : t2 < 4294967296 := xor_lt_mod32 _ _ h1 (mask32_lt _)
  exact xor_lt_mod32 _ _ h2 (lt_of_le_of_lt (shiftRight_le_self t2 14) h2)

theorem rngValue_nonneg (seed n : ℕ) : 0 ≤ rngValue seed n :=
  div_nonneg (by positivity) (by norm_num)

theorem rngValue_lt_one (seed n : ℕ) : rngValue seed n < 1 := by
  rw [rngValue, div_lt_one (by norm_num)]
  exact_mod_cast mix32_lt _

/-- C9: the uniform generator always produces values in `[0, 1)`, the
first Box-Muller draw is clamped into `[1e-8, 1 - 1e-8]`, the argument of
the square root is nonnegative, and the resulting Gaussian sample is a
(finite) real bounded by `sqrt(-2 ln 1e-8) * |scale|`. -/
theorem C9_noise_sampler_finite (seed n call : ℕ) :
    (0 ≤ rngValue seed n ∧ rngValue seed n < 1)
    ∧ (1e-8 ≤ clampQ (rngValue seed (2 * call)) 1e-8 (1 - 1e-8) ∧
        clampQ (rngValue seed (2 * call)) 1e-8 (1 - 1e-8) ≤ 1 - 1e-8)
    ∧ 0 ≤ -2 * Real.log (((clampQ (rngValue seed (2 * call)) 1e-8 (1 - 1e-8) : ℚ) : ℝ))
    ∧ ∀ scale : ℝ, |noiseSample seed call scale| ≤
        Real.sqrt (-2 * Real.log (((1e-8 : ℚ) : ℝ))) * |scale| := by
  have hlo : (1e-8 : ℚ) ≤ clampQ (rngValue seed (2 * call)) 1e-8 (1 - 1e-8) :=
    le_min (by norm_num) (le_max_left _ _)
  have hhi : clampQ (rngValue seed (2 * call)) 1e-8 (1 - 1e-8) ≤ 1 - 1e-8 :=
    min_le_left _ _
  have hlo' : ((1e-8 : ℚ) : ℝ) ≤
      ((clampQ (rngValue seed (2 * call)) 1e-8 (1 - 1e-8) : ℚ) : ℝ) :=
    Rat.cast_le.mpr hlo
  have hpos8 : (0 : ℝ) < ((1e-8 : ℚ) : ℝ) := by norm_num
  have hupos : (0 : ℝ) <
      ((clampQ (rngValue seed (2 * call)) 1e-8 (1 - 1e-8) : ℚ) : ℝ) :=
    lt_of_lt_of_le hpos8 hlo'
  have hule : ((clampQ (rngValue seed (2 * call)) 1e-8 (1 - 1e-8) : ℚ) : ℝ) ≤ 1 := by
    refine le_trans (Rat.cast_le.mpr hhi) ?_
    norm_num
  have hlog : Real.log
      ((clampQ (rngValue seed (2 * call)) 1e-8 (1 - 1e-8) : ℚ) : ℝ) ≤ 0 :=
    Real.log_nonpos (le_of_lt hupos) hule
  refine ⟨⟨rngValue_nonneg seed n, rngValue_lt_one seed n⟩, ⟨hlo, hhi⟩,
    by linarith, ?_⟩
  intro scale
  have hmono : -2 * Real.log
      ((clampQ (rngValue seed (2 * call)) 1e-8 (1 - 1e-8) : ℚ) : ℝ) ≤
      -2 * Real.log (((1e-8 : ℚ) : ℝ)) := by
    have := Real.log_le_log hpos8 hlo'
    linarith
  have hs : Real.sqrt (-2 * Real.log
      ((clampQ (rngValue seed (2 * call)) 1e-8 (1 - 1e-8) : ℚ) : ℝ)) ≤
      Real.sqrt (-2 * Real.log (((1e-8 : ℚ) : ℝ))) :=
    Real.sqrt_le_sqrt hmono
  have hc : |Real.cos (2 * Real.pi *
      ((rngValue seed (2 * call + 1) : ℚ) : ℝ))| ≤ 1 :=
    Real.abs_cos_le_one _
  simp only [noiseSample]
  rw [abs_mul, abs_mul, abs_of_nonneg (Real.sqrt_nonneg _)]
  have step1 : Real.sqrt (-2 * Real.log
      ((clampQ (rngValue seed (2 * call)) 1e-8 (1 - 1e-8) : ℚ) : ℝ)) *
      |Real.cos (2 * Real.pi * ((rngValue seed (2 * call + 1) : ℚ) : ℝ))| ≤
      Real.sqrt (-2 * Real.log (((1e-8 : ℚ) : ℝ))) := by
    refine le_trans (mul_le_mul_of_nonneg_left hc (Real.sqrt_nonneg _)) ?_
    rw [mul_one]
    exact hs
  exact mul_le_mul_of_nonneg_right step1 (abs_nonneg scale)

/-- C1: with noise disabled the sampler is the constant-zero function for
every seed, so `generateTrialSignals` produces identical `timesS`,
`forceN` and `velocityMps` sequences for any two seed values. -/
theorem C1_noise_disabled_seed_irrelevant (physics : PhysicsResult)
    (options : SignalOptions) (seed2 : ℕ) (h : options.noiseEnabled = false) :
    (generateTrialSignals physics { options with seed := seed2 }).timesS =
      (generateTrialSignals physics options).timesS ∧
    (generateTrialSignals physics { options with seed := seed2 }).forceN =
      (generateTrialSignals physics options).forceN ∧
    (generateTrialSignals physics { options with seed := seed2 }).velocityMps =
      (generateTrialSignals physics options).velocityMps := by
  obtain ⟨ne, sd, du, ra⟩ := options
  simp only at h
  subst h
  have hb : buildNoiseSampler seed2 false = buildNoiseSampler sd false := by
    simp [buildNoiseSampler]
  have hgen : generateTrialSignals physics ⟨false, seed2, du, ra⟩ =
      generateTrialSignals physics ⟨false, sd, du, ra⟩ := by
    simp only [generateTrialSignals, hb]
  exact ⟨congrArg TrialSignals.timesS hgen, congrArg TrialSignals.forceN hgen,
    congrArg TrialSignals.velocityMps hgen⟩

/-- Witness for C1 at a concrete input: seeds 99 and 7 give the same
sequences when noise is disabled. -/
theorem C1_witness :
    (generateTrialSignals ⟨true, 2, 3, 4, some 1⟩ ⟨false, 99, none, none⟩).timesS =
      (generateTrialSignals ⟨true, 2, 3, 4, some 1⟩ ⟨false, 7, none, none⟩).timesS ∧
    (generateTrialSignals ⟨true, 2, 3, 4, some 1⟩ ⟨false, 99, none, none⟩).forceN =
      (generateTrialSignals ⟨true, 2, 3, 4, some 1⟩ ⟨false, 7, none, none⟩).forceN ∧
    (generateTrialSignals ⟨true, 2, 3, 4, some 1⟩ ⟨false, 99, none, none⟩).velocityMps =
      (generateTrialSignals ⟨true, 2, 3, 4, some 1⟩ ⟨false, 7, none, none⟩).velocityMps :=
  C1_noise_disabled_seed_irrelevant ⟨true, 2, 3, 4, some 1⟩ ⟨false, 7, none, none⟩ 99 rfl

/-- C2 (amended): for a moved trial, provided the effective duration
exceeds 1.9 s (the default is 4.5 s), the phases satisfy
`initialStartS < accelStartS < accelEndS < stopEndS` and `motionWindow`
equals `{accelStartS, accelEndS}`; for a non-moved trial `motionWindow`
is null. -/
theorem C2_phase_ordering (physics : PhysicsResult) (options : SignalOptions) :
    (physics.moved = true → 1.9 < options.durationS.getD 4.5 →
      ((generateTrialSignals physics options).phases.initialStartS <
          (generateTrialSignals physics options).phases.accelStartS ∧
        (generateTrialSignals physics options).phases.accelStartS <
          (generateTrialSignals physics options).phases.accelEndS ∧
        (generateTrialSignals physics options).phases.accelEndS <
          (generateTrialSignals physics options).phases.stopEndS) ∧
      (generateTrialSignals physics options).motionWindow =
        some ⟨(generateTrialSignals physics options).phases.accelStartS,
              (generateTrialSignals physics options).phases.accelEndS⟩)
    ∧ (physics.moved = false →
        (generateTrialSignals physics options).motionWindow = none) := by
  constructor
  · intro hm hd
    simp only [generateTrialSignals, hm, clamp, if_true]
    refine ⟨⟨by norm_num, ?_, ?_⟩, trivial⟩
    · rw [lt_min_iff]
      refine ⟨by linarith, ?_⟩
      refine lt_of_lt_of_le ?_ (le_max_left _ _)
      norm_num
    · rw [lt_min_iff]
      refine ⟨lt_of_le_of_lt (min_le_left _ _) (by linarith), ?_⟩
      refine lt_of_lt_of_le ?_ (le_max_left _ _)
      linarith
  · intro hm
    simp [generateTrialSignals, hm]

/-- Counterexample to C2 as stated: with `durationS = 1.5` and a moved
physics result the phase ordering fails (`accelEndS = 0.3 < 0.7 =
accelStartS`), so the ordering does not hold for every options value. -/
theorem C2_counterexample :
    ¬((generateTrialSignals ⟨true, 1, 1, 1, some 1.5⟩
        ⟨false, 0, some 1.5, none⟩).phases.accelStartS <
      (generateTrialSignals ⟨true, 1, 1, 1, some 1.5⟩
        ⟨false, 0, some 1.5, none⟩).phases.accelEndS) := by
  refine not_lt.mpr ?_
  simp only [generateTrialSignals, clamp]
  norm_num

/-- Witness for C2 at a concrete input: a moved trial with the default
4.5 s duration has strictly ordered phases. -/
theorem C2_witness :
    (((generateTrialSignals ⟨true, 1, 1, 1, some 1.8⟩
          ⟨false, 0, none, none⟩).phases.initialStartS <
        (generateTrialSignals ⟨true, 1, 1, 1, some 1.8⟩
          ⟨false, 0, none, none⟩).phases.accelStartS ∧
      (generateTrialSignals ⟨true, 1, 1, 1, some 1.8⟩
          ⟨false, 0, none, none⟩).phases.accelStartS <
        (generateTrialSignals ⟨true, 1, 1, 1, some 1.8⟩
          ⟨false, 0, none, none⟩).phases.accelEndS ∧
      (generateTrialSignals ⟨true, 1, 1, 1, some 1.8⟩
          ⟨false, 0, none, none⟩).phases.accelEndS <
        (generateTrialSignals ⟨true, 1, 1, 1, some 1.8⟩
          ⟨false, 0, none, none⟩).phases.stopEndS) ∧
    (generateTrialSignals ⟨true, 1, 1, 1, some 1.8⟩
        ⟨false, 0, none, none⟩).motionWindow =
      some ⟨(generateTrialSignals ⟨true, 1, 1, 1, some 1.8⟩
              ⟨false, 0, none, none⟩).phases.accelStartS,
            (generateTrialSignals ⟨true, 1, 1, 1, some 1.8⟩
              ⟨false, 0, none, none⟩).phases.accelEndS⟩) :=
  (C2_phase_ordering ⟨true, 1, 1, 1, some 1.8⟩ ⟨false, 0, none, none⟩).1 rfl
    (by norm_num)

/-- C7 (amended): for a positive effective sample rate and a nonnegative
effective duration, `timesS`, `forceN` and `velocityMps` all have length
`floor(durationS * sampleRateHz) + 1`, `timesS[i] = i / sampleRateHz`, and
`timesS` is strictly increasing. -/
theorem C7_sampling_grid (physics : PhysicsResult) (options : SignalOptions)
    (hr : 0 < options.sampleRateHz.getD 60)
    (hd : 0 ≤ options.durationS.getD 4.5) :
    (generateTrialSignals physics options).timesS.length =
        (generateTrialSignals physics options).forceN.length ∧
    (generateTrialSignals physics options).timesS.length =
        (generateTrialSignals physics options).velocityMps.length ∧
    ((generateTrialSignals physics options).timesS.length : ℤ) =
        ⌊options.durationS.getD 4.5 * options.sampleRateHz.getD 60⌋ + 1 ∧
    (∀ i (h : i < (generateTrialSignals physics options).timesS.length),
      (generateTrialSignals physics options).timesS.get ⟨i, h⟩ =
        (i : ℝ) / options.sampleRateHz.getD 60) ∧
    (generateTrialSignals physics options).timesS.Pairwise (· < ·) := by
  have hfloor : 0 ≤ ⌊options.durationS.getD 4.5 * options.sampleRateHz.getD 60⌋ :=
    Int.floor_nonneg.mpr (mul_nonneg hd (le_of_lt hr))
  have h1 : (0 : ℤ) ≤
      ⌊options.durationS.getD 4.5 * options.sampleRateHz.getD 60⌋ + 1 := by omega
  refine ⟨?_, ?_, ?_, ?_, ?_⟩
  · simp only [generateTrialSignals, List.length_map]
  · simp only [generateTrialSignals, List.length_map]
  · simp only [generateTrialSignals, List.length_map, List.length_range]
    rw [Int.toNat_of_nonneg h1]
  · intro i h
    simp only [generateTrialSignals, List.get_eq_getElem, List.getElem_map,
      List.getElem_range]
  · simp only [generateTrialSignals]
    rw [List.pairwise_map]
    refine (List.pairwise_lt_range _).imp ?_
    intro a b hab
    rw [div_lt_div_iff_of_pos_right hr]
    exact_mod_cast hab

/-- Counterexample to C7 as stated: with `durationS = -2` (and the default
60 Hz rate, which is positive) the produced sequences are empty, so their
length is not `floor(durationS * sampleRateHz) + 1 = -119`. -/
theorem C7_counterexample :
    ¬(((generateTrialSignals ⟨false, 0, 0, 0, none⟩
          ⟨false, 0, some (-2), none⟩).timesS.length : ℤ) =
      ⌊((⟨false, 0, some (-2), none⟩ : SignalOptions).durationS.getD 4.5) *
          ((⟨false, 0, some (-2), none⟩ : SignalOptions).sampleRateHz.getD 60)⌋ + 1) := by
  have hprod : ((⟨false, 0, some (-2), none⟩ : SignalOptions).durationS.getD 4.5) *
      ((⟨false, 0, some (-2), none⟩ : SignalOptions).sampleRateHz.getD 60) =
      ((-120 : ℤ) : ℝ) := by
    norm_num
  have hfloor : ⌊((⟨false, 0, some (-2), none⟩ : SignalOptions).durationS.getD 4.5) *
      ((⟨false, 0, some (-2), none⟩ : SignalOptions).sampleRateHz.getD 60)⌋ =
      (-120 : ℤ) := by
    rw [hprod, Int.floor_intCast]
  have hlen : (generateTrialSignals ⟨false, 0, 0, 0, none⟩
      ⟨false, 0, some (-2), none⟩).timesS.length = 0 := by
    simp only [generateTrialSignals, List.length_map, List.length_range]
    rw [hfloor]
    rfl
  rw [hlen, hfloor]
  norm_num

/-- Witness for C7 at a concrete input: the default options give a positive
rate and nonnegative duration, hence the stated grid properties. -/
theorem C7_witness :
    (generateTrialSignals ⟨false, 0, 0, 0, none⟩ ⟨false, 0, none, none⟩).timesS.length =
        (generateTrialSignals ⟨false, 0, 0, 0, none⟩ ⟨false, 0, none, none⟩).forceN.length ∧
    (generateTrialSignals ⟨false, 0, 0, 0, none⟩ ⟨false, 0, none, none⟩).timesS.length =
        (generateTrialSignals ⟨false, 0, 0, 0, none⟩ ⟨false, 0, none, none⟩).velocityMps.length ∧
    ((generateTrialSignals ⟨false, 0, 0, 0, none⟩ ⟨false, 0, none, none⟩).timesS.length : ℤ) =
        ⌊((⟨false, 0, none, none⟩ : SignalOptions).durationS.getD 4.5) *
            ((⟨false, 0, none, none⟩ : SignalOptions).sampleRateHz.getD 60)⌋ + 1 ∧
    (∀ i (h : i < (generateTrialSignals ⟨false, 0, 0, 0, none⟩
          ⟨false, 0, none, none⟩).timesS.length),
      (generateTrialSignals ⟨false, 0, 0, 0, none⟩
          ⟨false, 0, none, none⟩).timesS.get ⟨i, h⟩ =
        (i : ℝ) / ((⟨false, 0, none, none⟩ : SignalOptions).sampleRateHz.getD 60)) ∧
    (generateTrialSignals ⟨false, 0, 0, 0, none⟩
        ⟨false, 0, none, none⟩).timesS.Pairwise (· < ·) :=
  C7_sampling_grid ⟨false, 0, 0, 0, none⟩ ⟨false, 0, none, none⟩ (by norm_num)
    (by norm_num)

end HalfAtwood
